import Mathlib

/-!
Shallow embedding of `src/Transaction.js` (poofcash/tx-manager).

The JavaScript class `Transaction` mutates, in place, its own fields
(`tx`, `executed`, `hashes`, `receipt`, `submitTimestamp`, the emitted
events) and the fields of its owning manager (`manager._nonce`, the
config cache `config.BLOCK_GAS_LIMIT`, the mutex).  We model the whole
mutable picture as one explicit state record `TxState`, and every method
as a state transformer `TxState → TxState × Except Err α` so that the
partially-updated state survives a thrown error, exactly as in-place JS
mutation does.

Network I/O (the `kit` / `web3` collaborator) is failure-injectable: an
`Env` record fixes the outcome of each external call, and every call
site appends a `Call` marker to `TxState.calls`, so "no network
interaction happened" is expressible as an equality of call traces.

Numbers: JS numbers and ethers BigNumbers are modelled as `ℕ` (all the
quantities involved are non-negative integers); `parseUnits(x, 'gwei')`
is `x * 10 ^ 9`; BigNumber `.div` is truncating division, i.e. `Nat`
division.  The float multipliers `GAS_LIMIT_MULTIPLIER` (e.g. 1.2) and
the 0.95 block-gas-limit factor are modelled as exact rationals with
`Math.floor` as `Rat.floor`; at every concrete value appearing in the
claims the double-precision computation and the rational one agree.
JavaScript truthiness of the optional numeric fields (`undefined` and
`0` are both falsy) is modelled by `optFalsy` on `Option ℕ`.
-/

namespace TxManager

/-- Errors: the synchronous "already executed" error thrown by `send`,
and opaque network-collaborator errors (propagated unmodified). -/
inductive Err where
  | alreadyExecuted
  | network (code : ℕ)
deriving DecidableEq

/-- The mutable transaction request object `this.tx`.  JS fields `to` and
`from` are spelled `toAddr` / `fromAddr`.  A missing field is `none`
(in JS: the property is absent / `undefined`). -/
structure Request where
  toAddr : Option ℕ := none
  fromAddr : Option ℕ := none
  value : Option ℕ := none
  data : Option ℕ := none
  gasLimit : Option ℕ := none
  gasPrice : Option ℕ := none
  nonce : Option ℕ := none
  chainId : Option ℕ := none
deriving DecidableEq

/-- Progress events emitted on the PromiEvent emitter. -/
inductive Event where
  | transactionHash (h : ℕ)
deriving DecidableEq

/-- Markers for network-collaborator calls, recorded in order. -/
inductive Call where
  | getBlock
  | estimateGas (req : Request)
  | gasPriceOracle
  | getTransactionCount
  | getChainId
  | sendTransaction (req : Request)
  | getHash
  | waitReceipt
deriving DecidableEq

/-- Manager configuration (`this.config`).  `BLOCK_GAS_LIMIT` is `none`
until lazily discovered. -/
structure Config where
  BLOCK_GAS_LIMIT : Option ℕ := none
  GAS_LIMIT_MULTIPLIER : ℚ := 1
  ESTIMATE_GAS : Bool := false
  MAX_GAS_PRICE : ℕ := 0
  MIN_GWEI_BUMP : ℕ := 0
  GAS_BUMP_PERCENTAGE : ℕ := 0
deriving DecidableEq

/-- Outcomes of the network collaborator's calls, fixed per run so that
every failure path of the code can be exercised.  `estimateGas` and
`sendTransaction` receive the request they are called with, as in the
source. -/
structure Env where
  getBlockGasLimit : Except Err ℕ
  estimateGas : Request → Except Err ℕ
  gasPriceOracle : Except Err ℕ
  getTransactionCount : Except Err ℕ
  getChainId : Except Err ℕ
  sendTransaction : Request → Except Err Unit
  getHash : Except Err ℕ
  waitReceipt : Except Err ℕ
  now : ℕ

/-- The combined mutable state of one `Transaction` and its manager
(`this.*`, `this.manager._nonce`, the config cache, the mutex) plus the
recorded call trace and emitted events. -/
structure TxState where
  address : ℕ
  cfg : Config
  managerNonce : Option ℕ
  mutexHeld : Bool
  tx : Request
  executed : Bool
  retries : ℕ
  submitTimestamp : Option ℕ
  hashes : List ℕ
  receipt : Option ℕ
  events : List Event
  calls : List Call
deriving DecidableEq

/-- JavaScript truthiness test for an optional numeric field: `!x` is
true when the field is absent (`undefined`) or `0`. -/
def optFalsy : Option ℕ → Bool
  | none => true
  | some k => k == 0

/-- Models ethers `parseUnits(n.toString(), 'gwei')`: gwei to wei. -/
def parseUnitsGwei (n : ℕ) : ℕ := n * 10 ^ 9

/-- Modelled from the spec: the helper `min` imported from `./utils`
(a repository file not present under src/) compares BigNumber values;
the spec's escalation formula `newPrice = min(candidate, M)` uses it as
the ordinary minimum, modelled here on ℕ. -/
def utilsMin (a b : ℕ) : ℕ := min a b

/-- Modelled from the spec: the helper `max` imported from `./utils`
(a repository file not present under src/), the ordinary maximum in the
spec's `candidate = max(P * (100 + K) / 100, P + B)`. -/
def utilsMax (a b : ℕ) : ℕ := max a b

/-- The manager fields that `Transaction` reads at construction time. -/
structure Manager where
  address : ℕ
  config : Config
  managerNonce : Option ℕ

/-- Models the constructor: `this.tx = {...tx, from: manager.address}`,
`this.executed = false`, `this.retries = 0`, `this.hashes = []`. -/
def mkTransaction (tx : Request) (m : Manager) : TxState :=
  { address := m.address
    cfg := m.config
    managerNonce := m.managerNonce
    mutexHeld := false
    tx := { tx with fromAddr := some m.address }
    executed := false
    retries := 0
    submitTimestamp := none
    hashes := []
    receipt := none
    events := []
    calls := [] }

/-- Sequencing of two fallible steps: the second runs only if the first
succeeded; a thrown error keeps the mutations made so far (JS in-place
mutation semantics). -/
def andThen (r : TxState × Except Err Unit)
    (f : TxState → TxState × Except Err Unit) : TxState × Except Err Unit :=
  match r with
  | (s, Except.error e) => (s, Except.error e)
  | (s, Except.ok _) => f s

/-- Step 1 of `_prepare`: lazily discover the block gas limit
(`getBlock('latest')`, cap at 95 percent, cache on the shared config).
Each branch shows the accumulated in-place mutations of that path. -/
def prepareBlockGasLimit (env : Env) (s : TxState) : TxState × Except Err Unit :=
  if optFalsy s.cfg.BLOCK_GAS_LIMIT then
    match env.getBlockGasLimit with
    | Except.error e =>
        ({ s with calls := s.calls ++ [Call.getBlock] }, Except.error e)
    | Except.ok bgl =>
        ({ s with
            calls := s.calls ++ [Call.getBlock]
            cfg := { s.cfg with BLOCK_GAS_LIMIT := some (bgl * 95 / 100) } },
          Except.ok ())
  else (s, Except.ok ())

/-- Step 2 of `_prepare`: estimate gas when no gas limit is set (or
`ESTIMATE_GAS` forces it); when no gas limit is set, assign
`min(floor(gas * GAS_LIMIT_MULTIPLIER), BLOCK_GAS_LIMIT)`. -/
def prepareGasLimit (env : Env) (s : TxState) : TxState × Except Err Unit :=
  if optFalsy s.tx.gasLimit || s.cfg.ESTIMATE_GAS then
    match env.estimateGas s.tx with
    | Except.error e =>
        ({ s with calls := s.calls ++ [Call.estimateGas s.tx] }, Except.error e)
    | Except.ok gas =>
        if optFalsy s.tx.gasLimit then
          ({ s with
              calls := s.calls ++ [Call.estimateGas s.tx]
              tx := { s.tx with gasLimit := some (min
                ((((gas : ℚ) * s.cfg.GAS_LIMIT_MULTIPLIER).floor).toNat)
                (s.cfg.BLOCK_GAS_LIMIT.getD 0)) } },
            Except.ok ())
        else ({ s with calls := s.calls ++ [Call.estimateGas s.tx] }, Except.ok ())
  else (s, Except.ok ())

/-- Step 3 of `_prepare`: when no gas price is set, take the lesser of
the oracle-derived fast price and `parseUnits(MAX_GAS_PRICE, 'gwei')`.
The oracle chain inside `_getGasPrice` (registry lookup, contract call,
1.3 wiggle) is an external collaborator; its final wei value is supplied
by `env.gasPriceOracle`. -/
def prepareGasPrice (env : Env) (s : TxState) : TxState × Except Err Unit :=
  if optFalsy s.tx.gasPrice then
    match env.gasPriceOracle with
    | Except.error e =>
        ({ s with calls := s.calls ++ [Call.gasPriceOracle] }, Except.error e)
    | Except.ok fast =>
        ({ s with
            calls := s.calls ++ [Call.gasPriceOracle]
            tx := { s.tx with
              gasPrice := some (utilsMin fast
                (parseUnitsGwei s.cfg.MAX_GAS_PRICE)) } },
          Except.ok ())
  else (s, Except.ok ())

/-- Step 4 of `_prepare`: `if (!this.manager._nonce) this.manager._nonce
= await this._getLastNonce()` followed by `this.tx.nonce =
this.manager._nonce`.  Note the JS falsiness check: a stored nonce of
`0` triggers a refetch. -/
def prepareNonce (env : Env) (s : TxState) : TxState × Except Err Unit :=
  if optFalsy s.managerNonce then
    match env.getTransactionCount with
    | Except.error e =>
        ({ s with calls := s.calls ++ [Call.getTransactionCount] }, Except.error e)
    | Except.ok n =>
        ({ s with
            calls := s.calls ++ [Call.getTransactionCount]
            managerNonce := some n
            tx := { s.tx with nonce := some n } },
          Except.ok ())
  else ({ s with tx := { s.tx with nonce := s.managerNonce } }, Except.ok ())

/-- Step 5 of `_prepare`: fetch and assign the chain id. -/
def prepareChainId (env : Env) (s : TxState) : TxState × Except Err Unit :=
  match env.getChainId with
  | Except.error e =>
      ({ s with calls := s.calls ++ [Call.getChainId] }, Except.error e)
  | Except.ok c =>
      ({ s with
          calls := s.calls ++ [Call.getChainId]
          tx := { s.tx with chainId := some c } }, Except.ok ())

/-- Models `_prepare`: the five preparation steps in source order. -/
def _prepare (env : Env) (s : TxState) : TxState × Except Err Unit :=
  andThen (prepareBlockGasLimit env s) fun s =>
  andThen (prepareGasLimit env s) fun s =>
  andThen (prepareGasPrice env s) fun s =>
  andThen (prepareNonce env s) fun s =>
  prepareChainId env s

/-- Models `_send`: sign-and-broadcast `this.tx`, record the submit
timestamp, fetch the hash, push it on `hashes`, await the receipt, and
only then emit the `transactionHash` event (source order: the `emit`
line comes after `await signedTx.waitReceipt()`). -/
def _send (env : Env) (s : TxState) : TxState × Except Err Unit :=
  match env.sendTransaction s.tx with
  | Except.error e =>
      ({ s with calls := s.calls ++ [Call.sendTransaction s.tx] }, Except.error e)
  | Except.ok _ =>
    match env.getHash with
    | Except.error e =>
        ({ s with
            calls := s.calls ++ [Call.sendTransaction s.tx, Call.getHash]
            submitTimestamp := some env.now }, Except.error e)
    | Except.ok txHash =>
      match env.waitReceipt with
      | Except.error e =>
          ({ s with
              calls := s.calls ++
                [Call.sendTransaction s.tx, Call.getHash, Call.waitReceipt]
              submitTimestamp := some env.now
              hashes := s.hashes ++ [txHash] }, Except.error e)
      | Except.ok receipt =>
          ({ s with
              calls := s.calls ++
                [Call.sendTransaction s.tx, Call.getHash, Call.waitReceipt]
              submitTimestamp := some env.now
              hashes := s.hashes ++ [txHash]
              receipt := some receipt
              events := s.events ++ [Event.transactionHash txHash] },
            Except.ok ())

/-- Core of `_increaseGasPrice`, on wei values after the `parseUnits`
conversions: no-op when already at the max, else
`min(max(old * (100 + bumpPct) / 100, old + minGweiBump), maxGasPrice)`
(BigNumber `div` truncates). Returns the `true`/`false` result of the
JS function together with the (possibly unchanged) price. -/
def increaseGasPrice (bumpPct oldGasPrice minGweiBump maxGasPrice : ℕ) : Bool × ℕ :=
  if maxGasPrice ≤ oldGasPrice then (false, oldGasPrice)
  else
    let newGasPrice := utilsMax (oldGasPrice * (100 + bumpPct) / 100)
      (oldGasPrice + minGweiBump)
    (true, utilsMin newGasPrice maxGasPrice)

/-- Models `_increaseGasPrice` acting on the state: reads the config and
`this.tx.gasPrice`, writes the bumped price back to `this.tx.gasPrice`
unless already at the max (in which case nothing is written). -/
def _increaseGasPrice (s : TxState) : TxState × Bool :=
  match increaseGasPrice s.cfg.GAS_BUMP_PERCENTAGE (s.tx.gasPrice.getD 0)
      (parseUnitsGwei s.cfg.MIN_GWEI_BUMP) (parseUnitsGwei s.cfg.MAX_GAS_PRICE) with
  | (false, _) => (s, false)
  | (true, p) => ({ s with tx := { s.tx with gasPrice := some p } }, true)

/-- Models `_execute`: acquire the manager's mutex, `try { _prepare;
_send; manager._nonce = this.tx.nonce + 1; return this.receipt }
finally { release }`.  The mutex is released on every exit path. -/
def _execute (env : Env) (s : TxState) : TxState × Except Err (Option ℕ) :=
  match _prepare env { s with mutexHeld := true } with
  | (s1, Except.error e) => ({ s1 with mutexHeld := false }, Except.error e)
  | (s1, Except.ok _) =>
    match _send env s1 with
    | (s2, Except.error e) => ({ s2 with mutexHeld := false }, Except.error e)
    | (s2, Except.ok _) =>
      ({ s2 with
          managerNonce := some (s2.tx.nonce.getD 0 + 1)
          mutexHeld := false },
        Except.ok s2.receipt)

/-- Models `send`: throw synchronously when `executed` is already set
(before any mutation or network call); otherwise set `executed` and run
`_execute` (the asynchronous run is folded in, single-threaded
cooperative model). -/
def send (env : Env) (s : TxState) : TxState × Except Err (Option ℕ) :=
  if s.executed then (s, Except.error Err.alreadyExecuted)
  else _execute env { s with executed := true }

/-- Tail of `replace` past the gas-limit estimation: force the original
nonce, floor the gas price at the current one (`tx.gasPrice || 0`),
install the new request, bump the gas price, resubmit.  `this.tx.gasPrice`
is read with `getD 0`; in the intended flow (after a send) prepare has
always set it, so the unset case is unreachable. -/
def replaceResubmit (env : Env) (tx : Request) (s : TxState) : TxState × Except Err Unit :=
  _send env (_increaseGasPrice { s with tx :=
    { tx with
      nonce := s.tx.nonce
      gasPrice := some (max (s.tx.gasPrice.getD 0)
        (if optFalsy tx.gasPrice then 0 else tx.gasPrice.getD 0)) } }).1

/-- Models `replace`: before execution just overwrite the pending
request with a shallow copy of the argument; after execution estimate a
gas limit when none is given, then resubmit under the original nonce
with a bumped price. -/
def replace (env : Env) (tx : Request) (s : TxState) : TxState × Except Err Unit :=
  if !s.executed then
    ({ s with tx := tx }, Except.ok ())
  else if optFalsy tx.gasLimit then
    match env.estimateGas tx with
    | Except.error e =>
        ({ s with calls := s.calls ++ [Call.estimateGas tx] }, Except.error e)
    | Except.ok g =>
        replaceResubmit env
          { tx with gasLimit := some (min
              ((((g : ℚ) * s.cfg.GAS_LIMIT_MULTIPLIER).floor).toNat)
              (s.cfg.BLOCK_GAS_LIMIT.getD 0)) }
          { s with calls := s.calls ++ [Call.estimateGas tx] }
  else replaceResubmit env tx s

/-- Models `cancel`: `replace` with a zero-value self-transfer and a
21000 gas limit. -/
def cancel (env : Env) (s : TxState) : TxState × Except Err Unit :=
  replace env
    { fromAddr := some s.address
      toAddr := some s.address
      value := some 0
      gasLimit := some 21000 } s

/-- Any interleaving of `replace` and `cancel` calls applied in order
(`none` stands for a `cancel`, `some r` for `replace r`). -/
def applyOps (env : Env) (ops : List (Option Request)) (s : TxState) : TxState :=
  ops.foldl (fun s op => match op with
    | none => (cancel env s).1
    | some r => (replace env r s).1) s

/-- A collaborator environment where every call succeeds, used to
instantiate the theorems at concrete inputs. -/
def envAllOk : Env :=
  { getBlockGasLimit := Except.ok 10000000
    estimateGas := fun _ => Except.ok 40000
    gasPriceOracle := Except.ok 1000000000
    getTransactionCount := Except.ok 7
    getChainId := Except.ok 42220
    sendTransaction := fun _ => Except.ok ()
    getHash := Except.ok 161
    waitReceipt := Except.ok 1
    now := 1700000000 }

/-- An environment whose receipt wait fails after a successful broadcast. -/
def envReceiptFails : Env :=
  { envAllOk with waitReceipt := Except.error (Err.network 0) }

/-- An environment whose gas estimate is 50000. -/
def envEstimate50k : Env :=
  { envAllOk with estimateGas := fun _ => Except.ok 50000 }

/-- A ready-to-send state: gas fields supplied, block gas limit cached,
manager nonce initialized to 7. -/
def readyState : TxState :=
  { address := 3
    cfg := { BLOCK_GAS_LIMIT := some 60000
             GAS_LIMIT_MULTIPLIER := 6 / 5
             ESTIMATE_GAS := false
             MAX_GAS_PRICE := 100
             MIN_GWEI_BUMP := 1
             GAS_BUMP_PERCENTAGE := 10 }
    managerNonce := some 7
    mutexHeld := false
    tx := { toAddr := some 5
            fromAddr := some 3
            value := some 1
            gasLimit := some 21000
            gasPrice := some 5 }
    executed := false
    retries := 0
    submitTimestamp := none
    hashes := []
    receipt := none
    events := []
    calls := [] }

/-- A state as after a successful first send: executed, nonce 7 assigned
to the request, manager nonce advanced, one hash recorded. -/
def sentState : TxState :=
  { readyState with
    executed := true
    tx := { readyState.tx with
            nonce := some 7
            chainId := some 42220 }
    managerNonce := some 8
    hashes := [161] }

/-- A state whose request carries no gas limit. -/
def stateNoGasLimit : TxState :=
  { readyState with tx := { readyState.tx with gasLimit := none } }

/-- A state whose manager nonce is the falsy value 0. -/
def stateNonceZero : TxState :=
  { readyState with managerNonce := some 0 }

/-! ## Frame lemmas: what each step leaves untouched -/

theorem optFalsy_eq_false {o : Option ℕ} :
    optFalsy o = false ↔ ∃ k, o = some k ∧ k ≠ 0 := by
  cases o with
  | none => simp [optFalsy]
  | some k => simp [optFalsy]

theorem prepareBlockGasLimit_frame (env : Env) (s : TxState) :
    ((prepareBlockGasLimit env s).1).managerNonce = s.managerNonce ∧
    ((prepareBlockGasLimit env s).1).tx = s.tx ∧
    ((prepareBlockGasLimit env s).1).executed = s.executed ∧
    ∃ l, ((prepareBlockGasLimit env s).1).calls = s.calls ++ l ∧
      Call.getTransactionCount ∉ l ∧ ∀ q, Call.sendTransaction q ∉ l := by
  unfold prepareBlockGasLimit
  split
  · cases env.getBlockGasLimit <;>
      exact ⟨rfl, rfl, rfl, [Call.getBlock], rfl, by simp, by simp⟩
  · exact ⟨rfl, rfl, rfl, [], by simp, by simp, by simp⟩

theorem prepareGasLimit_frame (env : Env) (s : TxState) :
    ((prepareGasLimit env s).1).managerNonce = s.managerNonce ∧
    ((prepareGasLimit env s).1).tx.nonce = s.tx.nonce ∧
    ((prepareGasLimit env s).1).tx.gasPrice = s.tx.gasPrice ∧
    ((prepareGasLimit env s).1).executed = s.executed ∧
    ∃ l, ((prepareGasLimit env s).1).calls = s.calls ++ l ∧
      Call.getTransactionCount ∉ l ∧ ∀ q, Call.sendTransaction q ∉ l := by
  unfold prepareGasLimit
  split
  · cases env.estimateGas s.tx with
    | error e =>
        exact ⟨rfl, rfl, rfl, rfl, [Call.estimateGas s.tx], rfl, by simp, by simp⟩
    | ok gas =>
        dsimp only
        by_cases hgl : optFalsy s.tx.gasLimit = true
        · rw [if_pos hgl]
          exact ⟨rfl, rfl, rfl, rfl, [Call.estimateGas s.tx], rfl, by simp, by simp⟩
        · rw [if_neg hgl]
          exact ⟨rfl, rfl, rfl, rfl, [Call.estimateGas s.tx], rfl, by simp, by simp⟩
  · exact ⟨rfl, rfl, rfl, rfl, [], by simp, by simp, by simp⟩

theorem prepareGasPrice_frame (env : Env) (s : TxState) :
    ((prepareGasPrice env s).1).managerNonce = s.managerNonce ∧
    ((prepareGasPrice env s).1).tx.nonce = s.tx.nonce ∧
    ((prepareGasPrice env s).1).tx.gasLimit = s.tx.gasLimit ∧
    ((prepareGasPrice env s).1).executed = s.executed ∧
    ∃ l, ((prepareGasPrice env s).1).calls = s.calls ++ l ∧
      Call.getTransactionCount ∉ l ∧ ∀ q, Call.sendTransaction q ∉ l := by
  unfold prepareGasPrice
  split
  · cases env.gasPriceOracle <;>
      exact ⟨rfl, rfl, rfl, rfl, [Call.gasPriceOracle], rfl, by simp, by simp⟩
  · exact ⟨rfl, rfl, rfl, rfl, [], by simp, by simp, by simp⟩

theorem prepareChainId_frame (env : Env) (s : TxState) :
    ((prepareChainId env s).1).managerNonce = s.managerNonce ∧
    ((prepareChainId env s).1).tx.nonce = s.tx.nonce ∧
    ((prepareChainId env s).1).tx.gasLimit = s.tx.gasLimit ∧
    ((prepareChainId env s).1).executed = s.executed ∧
    ∃ l, ((prepareChainId env s).1).calls = s.calls ++ l ∧
      Call.getTransactionCount ∉ l ∧ ∀ q, Call.sendTransaction q ∉ l := by
  unfold prepareChainId
  cases env.getChainId <;>
    exact ⟨rfl, rfl, rfl, rfl, [Call.getChainId], rfl, by simp, by simp⟩

theorem prepareNonce_frame (env : Env) (s : TxState) :
    ((prepareNonce env s).1).tx.gasLimit = s.tx.gasLimit ∧
    ((prepareNonce env s).1).tx.gasPrice = s.tx.gasPrice ∧
    ((prepareNonce env s).1).executed = s.executed ∧
    ∃ l, ((prepareNonce env s).1).calls = s.calls ++ l ∧
      ∀ q, Call.sendTransaction q ∉ l := by
  unfold prepareNonce
  split
  · cases env.getTransactionCount <;>
      exact ⟨rfl, rfl, rfl, [Call.getTransactionCount], rfl, by simp⟩
  · exact ⟨rfl, rfl, rfl, [], by simp, by simp⟩

theorem send_frame (env : Env) (s : TxState) :
    ((_send env s).1).tx = s.tx ∧
    ((_send env s).1).managerNonce = s.managerNonce ∧
    ((_send env s).1).executed = s.executed ∧
    ((_send env s).1).mutexHeld = s.mutexHeld ∧
    ∃ l, ((_send env s).1).calls = s.calls ++ l ∧
      Call.getTransactionCount ∉ l ∧
      ∀ q, Call.sendTransaction q ∈ l → q = s.tx := by
  unfold _send
  cases env.sendTransaction s.tx with
  | error e =>
      refine ⟨rfl, rfl, rfl, rfl, [Call.sendTransaction s.tx], by simp, by simp, ?_⟩
      intro q hq
      simp at hq
      exact hq
  | ok _ =>
    cases env.getHash with
    | error e =>
        refine ⟨rfl, rfl, rfl, rfl, [Call.sendTransaction s.tx, Call.getHash],
          by simp, by simp, ?_⟩
        intro q hq
        simp at hq
        exact hq
    | ok txHash =>
      cases env.waitReceipt with
      | error e =>
          refine ⟨rfl, rfl, rfl, rfl,
            [Call.sendTransaction s.tx, Call.getHash, Call.waitReceipt],
            by simp, by simp, ?_⟩
          intro q hq
          simp at hq
          exact hq
      | ok receipt =>
          refine ⟨rfl, rfl, rfl, rfl,
            [Call.sendTransaction s.tx, Call.getHash, Call.waitReceipt],
            by simp, by simp, ?_⟩
          intro q hq
          simp at hq
          exact hq

theorem increaseGasPrice_frame (s : TxState) :
    ((_increaseGasPrice s).1).tx.nonce = s.tx.nonce ∧
    ((_increaseGasPrice s).1).managerNonce = s.managerNonce ∧
    ((_increaseGasPrice s).1).executed = s.executed ∧
    ((_increaseGasPrice s).1).calls = s.calls := by
  unfold _increaseGasPrice
  split <;> exact ⟨rfl, rfl, rfl, rfl⟩

/-! ## Behavior of the nonce step and its composition through `_prepare` -/

theorem prepareNonce_truthy (env : Env) (s : TxState)
    (h : optFalsy s.managerNonce = false) :
    prepareNonce env s =
      ({ s with tx := { s.tx with nonce := s.managerNonce } }, Except.ok ()) := by
  unfold prepareNonce
  rw [if_neg (by simp [h])]

theorem prepareNonce_post (env : Env) (s : TxState) :
    (∀ u, (prepareNonce env s).2 = Except.ok u →
      ∃ n, ((prepareNonce env s).1).managerNonce = some n ∧
        ((prepareNonce env s).1).tx.nonce = some n) ∧
    (∀ e, (prepareNonce env s).2 = Except.error e →
      ((prepareNonce env s).1).managerNonce = s.managerNonce ∧
      ((prepareNonce env s).1).tx = s.tx) := by
  unfold prepareNonce
  split
  · cases env.getTransactionCount with
    | error e =>
        refine ⟨fun u hu => (nomatch hu), fun e' he => ⟨rfl, rfl⟩⟩
    | ok n =>
        refine ⟨fun u hu => ⟨n, rfl, rfl⟩, fun e' he => nomatch he⟩
  · next h =>
      have hf : optFalsy s.managerNonce = false := by
        cases hx : optFalsy s.managerNonce with
        | false => rfl
        | true => exact absurd hx h
      obtain ⟨k, hk, -⟩ := optFalsy_eq_false.mp hf
      exact ⟨fun u hu => ⟨k, hk, hk⟩, fun e' he => nomatch he⟩

theorem prepare_nonce_post (env : Env) (s : TxState) :
    (∀ u, (_prepare env s).2 = Except.ok u →
      ∃ n, ((_prepare env s).1).managerNonce = some n ∧
        ((_prepare env s).1).tx.nonce = some n) ∧
    (∀ e, (_prepare env s).2 = Except.error e →
      (((_prepare env s).1).managerNonce = s.managerNonce ∧
        ((_prepare env s).1).tx.nonce = s.tx.nonce) ∨
      ((_prepare env s).1).managerNonce = ((_prepare env s).1).tx.nonce) := by
  unfold _prepare
  obtain ⟨f1n, f1tx, -, -⟩ := prepareBlockGasLimit_frame env s
  rcases h1 : prepareBlockGasLimit env s with ⟨s1, r1⟩
  rw [h1] at f1n f1tx
  cases r1 with
  | error e1 =>
      simp only [andThen]
      exact ⟨fun u hu => (nomatch hu),
        fun e he => Or.inl ⟨f1n, by rw [f1tx]⟩⟩
  | ok u1 =>
    simp only [andThen]
    obtain ⟨f2n, f2tx, -, -, -⟩ := prepareGasLimit_frame env s1
    rcases h2 : prepareGasLimit env s1 with ⟨s2, r2⟩
    rw [h2] at f2n f2tx
    cases r2 with
    | error e2 =>
        simp only [andThen]
        exact ⟨fun u hu => (nomatch hu),
          fun e he => Or.inl ⟨f2n.trans f1n, by rw [f2tx, f1tx]⟩⟩
    | ok u2 =>
      simp only [andThen]
      obtain ⟨f3n, f3tx, -, -, -⟩ := prepareGasPrice_frame env s2
      rcases h3 : prepareGasPrice env s2 with ⟨s3, r3⟩
      rw [h3] at f3n f3tx
      cases r3 with
      | error e3 =>
          simp only [andThen]
          exact ⟨fun u hu => (nomatch hu),
            fun e he => Or.inl ⟨(f3n.trans f2n).trans f1n,
              by rw [f3tx, f2tx, f1tx]⟩⟩
      | ok u3 =>
        simp only [andThen]
        obtain ⟨p4ok, p4err⟩ := prepareNonce_post env s3
        rcases h4 : prepareNonce env s3 with ⟨s4, r4⟩
        rw [h4] at p4ok p4err
        cases r4 with
        | error e4 =>
            simp only [andThen]
            obtain ⟨hmn, htx⟩ := p4err e4 rfl
            refine ⟨fun u hu => (nomatch hu), fun e he => Or.inl ?_⟩
            constructor
            · exact (hmn.trans f3n).trans (f2n.trans f1n)
            · rw [htx, f3tx, f2tx, f1tx]
        | ok u4 =>
          simp only [andThen]
          obtain ⟨n, hn1, hn2⟩ := p4ok u4 rfl
          obtain ⟨f5n, f5tx, -, -, -⟩ := prepareChainId_frame env s4
          rcases h5 : prepareChainId env s4 with ⟨s5, r5⟩
          rw [h5] at f5n f5tx
          cases r5 with
          | error e5 =>
              refine ⟨fun u hu => (nomatch hu), fun e he => Or.inr ?_⟩
              rw [f5n, f5tx, hn1, hn2]
          | ok u5 =>
              refine ⟨fun u hu => ⟨n, ?_, ?_⟩, fun e he => nomatch he⟩
              · rw [f5n, hn1]
              · rw [f5tx, hn2]

/-! ## Claim C9: the mutex is released on every exit path of `_execute` -/

/-- Claim C9: on every exit path of `_execute` — normal return as well
as any error thrown during prepare, submit, or the nonce advance — the
manager's mutual-exclusion gate acquired at entry is released (the final
state never has the mutex held), for every combination of
network-collaborator outcomes. -/
theorem execute_releases_mutex (env : Env) (s : TxState) :
    ((_execute env s).1).mutexHeld = false := by
  unfold _execute
  rcases h1 : _prepare env { s with mutexHeld := true } with ⟨s1, r1⟩
  cases r1 with
  | error e => rfl
  | ok u =>
    dsimp only
    rcases h2 : _send env s1 with ⟨s2, r2⟩
    cases r2 with
    | error e => rfl
    | ok u2 => rfl

/-! ## Claims C4 and C5: the gas-price escalation formula -/

/-- Claim C4: for every current price P strictly below the max price M,
one escalation step with minimum bump B and bump percentage K yields
`min(max(P * (100 + K) / 100, P + B), M)` (truncating division), and in
particular the two concrete instances from the specification. -/
theorem escalation_formula (P K B M : ℕ) (h : P < M) :
    increaseGasPrice K P B M =
      (true, min (max (P * (100 + K) / 100) (P + B)) M) ∧
    increaseGasPrice 10 100 5 1000 = (true, 110) ∧
    increaseGasPrice 10 990 50 1000 = (true, 1000) := by
  refine ⟨?_, by decide, by decide⟩
  unfold increaseGasPrice
  rw [if_neg (by omega)]
  rfl

/-- Witness for C4 at the specification's first concrete instance. -/
theorem escalation_formula_witness :
    100 < 1000 ∧
    increaseGasPrice 10 100 5 1000 =
      (true, min (max (100 * (100 + 10) / 100) (100 + 5)) 1000) :=
  ⟨by decide, (escalation_formula 100 10 5 1000 (by decide)).1⟩

/-- Claim C5: escalation never pushes the price above the max — the
resulting price is at most `MAX_GAS_PRICE` (in wei) unless the step left
the state completely unchanged — and for every price at or above the max
the step is a no-op returning `false`, so a second step from the
resulting state is the same no-op. -/
theorem escalation_capped_idempotent (s : TxState) :
    (((_increaseGasPrice s).1).tx.gasPrice.getD 0 ≤
        parseUnitsGwei s.cfg.MAX_GAS_PRICE ∨
      ((_increaseGasPrice s).1) = s) ∧
    (parseUnitsGwei s.cfg.MAX_GAS_PRICE ≤ s.tx.gasPrice.getD 0 →
      _increaseGasPrice s = (s, false) ∧
      _increaseGasPrice ((_increaseGasPrice s).1) = (s, false)) := by
  unfold _increaseGasPrice increaseGasPrice
  by_cases h : parseUnitsGwei s.cfg.MAX_GAS_PRICE ≤ s.tx.gasPrice.getD 0
  · rw [if_pos h]
    refine ⟨Or.inr rfl, fun _ => ⟨rfl, ?_⟩⟩
    rw [if_pos h]
  · rw [if_neg h]
    refine ⟨Or.inl ?_, fun hc => absurd hc h⟩
    exact min_le_right _ _

/-- Witness for C5 at a concrete state already at the max price. -/
theorem escalation_capped_idempotent_witness :
    parseUnitsGwei (1 : ℕ) ≤ (1000000000 : ℕ) ∧
    _increaseGasPrice
      { address := 0
        cfg := { MAX_GAS_PRICE := 1 }
        managerNonce := none
        mutexHeld := false
        tx := { gasPrice := some 1000000000 }
        executed := true
        retries := 0
        submitTimestamp := none
        hashes := []
        receipt := none
        events := []
        calls := [] } =
      ({ address := 0
         cfg := { MAX_GAS_PRICE := 1 }
         managerNonce := none
         mutexHeld := false
         tx := { gasPrice := some 1000000000 }
         executed := true
         retries := 0
         submitTimestamp := none
         hashes := []
         receipt := none
         events := []
         calls := [] }, false) := by
  constructor
  · decide
  · exact ((escalation_capped_idempotent _).2 (by decide)).1

/-! ## Claim C1: nonce advance exactly on success -/

/-- Claim C1: whenever `_execute` completes successfully the manager's
stored nonce is set to the transaction's latest actually-used nonce plus
one; whenever any step inside the critical section fails, the stored
nonce is never advanced past the nonce of the failed attempt — it is
either untouched, or (when it was lazily initialized during this very
prepare) equal to the nonce the failed attempt was assigned, so the
nonce slot is not consumed. -/
theorem execute_nonce_advance (env : Env) (s : TxState) :
    (∀ r, (_execute env s).2 = Except.ok r →
      ∃ n, ((_execute env s).1).tx.nonce = some n ∧
        ((_execute env s).1).managerNonce = some (n + 1)) ∧
    (∀ e, (_execute env s).2 = Except.error e →
      ((_execute env s).1).managerNonce = s.managerNonce ∨
      ((_execute env s).1).managerNonce = ((_execute env s).1).tx.nonce) := by
  unfold _execute
  obtain ⟨pok, perr⟩ := prepare_nonce_post env { s with mutexHeld := true }
  rcases h1 : _prepare env { s with mutexHeld := true } with ⟨s1, r1⟩
  rw [h1] at pok perr
  cases r1 with
  | error e1 =>
      refine ⟨fun r hr => (nomatch hr), fun e he => ?_⟩
      rcases perr e1 rfl with ⟨hmn, -⟩ | hsame
      · exact Or.inl hmn
      · exact Or.inr hsame
  | ok u1 =>
    dsimp only
    obtain ⟨ftx, fmn, -, -, -⟩ := send_frame env s1
    rcases h2 : _send env s1 with ⟨s2, r2⟩
    rw [h2] at ftx fmn
    obtain ⟨n, hn1, hn2⟩ := pok u1 rfl
    have h2n : s2.tx.nonce = some n := by rw [ftx]; exact hn2
    cases r2 with
    | error e2 =>
        refine ⟨fun r hr => (nomatch hr), fun e he => Or.inr ?_⟩
        show s2.managerNonce = s2.tx.nonce
        rw [fmn, hn1, h2n]
    | ok u2 =>
        refine ⟨fun r hr => ⟨n, ?_, ?_⟩, fun e he => (nomatch he)⟩
        · exact h2n
        · show some (s2.tx.nonce.getD 0 + 1) = some (n + 1)
          rw [h2n]
          rfl

/-- Witness for C1: a fully successful run from `readyState` advances
the manager nonce to the used nonce plus one. -/
theorem execute_nonce_advance_witness :
    (_execute envAllOk readyState).2 = Except.ok (some 1) ∧
    (∃ n, ((_execute envAllOk readyState).1).tx.nonce = some n ∧
      ((_execute envAllOk readyState).1).managerNonce = some (n + 1)) :=
  ⟨rfl, (execute_nonce_advance envAllOk readyState).1 (some 1) rfl⟩

/-! ## Claim C6: a second `send` fails fast without effects -/

theorem prepare_executed (env : Env) (s : TxState) :
    ((_prepare env s).1).executed = s.executed := by
  unfold _prepare
  obtain ⟨-, -, f1ex, -⟩ := prepareBlockGasLimit_frame env s
  rcases h1 : prepareBlockGasLimit env s with ⟨s1, r1⟩
  rw [h1] at f1ex
  cases r1 with
  | error e1 => simpa only [andThen] using f1ex
  | ok u1 =>
    simp only [andThen]
    obtain ⟨-, -, -, f2ex, -⟩ := prepareGasLimit_frame env s1
    rcases h2 : prepareGasLimit env s1 with ⟨s2, r2⟩
    rw [h2] at f2ex
    cases r2 with
    | error e2 => simpa only [andThen] using f2ex.trans f1ex
    | ok u2 =>
      simp only [andThen]
      obtain ⟨-, -, -, f3ex, -⟩ := prepareGasPrice_frame env s2
      rcases h3 : prepareGasPrice env s2 with ⟨s3, r3⟩
      rw [h3] at f3ex
      cases r3 with
      | error e3 => simpa only [andThen] using (f3ex.trans f2ex).trans f1ex
      | ok u3 =>
        simp only [andThen]
        obtain ⟨-, -, f4ex, -⟩ := prepareNonce_frame env s3
        rcases h4 : prepareNonce env s3 with ⟨s4, r4⟩
        rw [h4] at f4ex
        cases r4 with
        | error e4 =>
            simpa only [andThen] using (f4ex.trans f3ex).trans (f2ex.trans f1ex)
        | ok u4 =>
          simp only [andThen]
          obtain ⟨-, -, -, f5ex, -⟩ := prepareChainId_frame env s4
          exact f5ex.trans ((f4ex.trans f3ex).trans (f2ex.trans f1ex))

theorem execute_executed (env : Env) (s : TxState) :
    ((_execute env s).1).executed = s.executed := by
  unfold _execute
  have hp := prepare_executed env { s with mutexHeld := true }
  rcases h1 : _prepare env { s with mutexHeld := true } with ⟨s1, r1⟩
  rw [h1] at hp
  cases r1 with
  | error e => exact hp
  | ok u =>
    dsimp only
    obtain ⟨-, -, fex, -, -⟩ := send_frame env s1
    rcases h2 : _send env s1 with ⟨s2, r2⟩
    rw [h2] at fex
    cases r2 with
    | error e => exact fex.trans hp
    | ok u2 => exact fex.trans hp

theorem send_already (env : Env) (s : TxState) (h : s.executed = true) :
    send env s = (s, Except.error Err.alreadyExecuted) := by
  unfold send
  rw [if_pos h]

/-- Claim C6: on a Transaction whose `send` has already run (in any
collaborator environment, with any outcome), a second `send` fails
synchronously with the already-executed error, returns the state
entirely unchanged (no mutation), and appends nothing to the call trace
(no network interaction). -/
theorem send_twice_fails (env1 env2 : Env) (s : TxState) :
    (s.executed = true → send env2 s = (s, Except.error Err.alreadyExecuted)) ∧
    (s.executed = false →
      send env2 ((send env1 s).1) =
        ((send env1 s).1, Except.error Err.alreadyExecuted)) := by
  refine ⟨fun h => send_already env2 s h, fun h => ?_⟩
  have hex : ((send env1 s).1).executed = true := by
    unfold send
    rw [if_neg (by simp [h])]
    exact execute_executed env1 { s with executed := true }
  exact send_already env2 ((send env1 s).1) hex

/-- Witness for C6: a state that has already executed, and a fresh state
sent twice; the second call returns the already-executed error and the
untouched state both times. -/
theorem send_twice_fails_witness :
    ({ readyState with executed := true } : TxState).executed = true ∧
    send envAllOk { readyState with executed := true } =
      ({ readyState with executed := true }, Except.error Err.alreadyExecuted) ∧
    readyState.executed = false ∧
    send envAllOk ((send envAllOk readyState).1) =
      ((send envAllOk readyState).1, Except.error Err.alreadyExecuted) :=
  ⟨rfl, (send_twice_fails envAllOk envAllOk { readyState with executed := true }).1 rfl,
    rfl, (send_twice_fails envAllOk envAllOk readyState).2 rfl⟩

/-! ## Claim C2: replace and cancel preserve the assigned nonce -/

theorem send_after_bump (env : Env) (sA : TxState) :
    (∀ q, Call.sendTransaction q ∈ ((_send env (_increaseGasPrice sA).1).1).calls →
      Call.sendTransaction q ∈ sA.calls ∨ q.nonce = sA.tx.nonce) ∧
    ((_send env (_increaseGasPrice sA).1).1).tx.nonce = sA.tx.nonce ∧
    ((_send env (_increaseGasPrice sA).1).1).executed = sA.executed := by
  obtain ⟨g1n, -, g1ex, g1c⟩ := increaseGasPrice_frame sA
  rcases hg : _increaseGasPrice sA with ⟨sm, b⟩
  rw [hg] at g1n g1ex g1c
  dsimp only at g1n g1ex g1c ⊢
  obtain ⟨ftx, -, fex, -, l, hl, -, hql⟩ := send_frame env sm
  refine ⟨?_, ?_, fex.trans g1ex⟩
  · intro q hq
    rw [hl, g1c] at hq
    rcases List.mem_append.mp hq with h1 | h2
    · exact Or.inl h1
    · right
      rw [hql q h2]
      exact g1n
  · rw [show ((_send env sm).1).tx = sm.tx from ftx]
    exact g1n

theorem replaceResubmit_step (env : Env) (tx : Request) (s : TxState)
    (h : s.executed = true) :
    ((replaceResubmit env tx s).1).executed = true ∧
    ((replaceResubmit env tx s).1).tx.nonce = s.tx.nonce ∧
    ∀ q, Call.sendTransaction q ∈ ((replaceResubmit env tx s).1).calls →
      Call.sendTransaction q ∈ s.calls ∨ q.nonce = s.tx.nonce := by
  unfold replaceResubmit
  refine ⟨(send_after_bump env _).2.2.trans h, (send_after_bump env _).2.1, ?_⟩
  intro q hq
  rcases (send_after_bump env _).1 q hq with h1 | h2
  · exact Or.inl h1
  · exact Or.inr h2

theorem replace_step (env : Env) (tx : Request) (s : TxState)
    (h : s.executed = true) :
    ((replace env tx s).1).executed = true ∧
    ((replace env tx s).1).tx.nonce = s.tx.nonce ∧
    ∀ q, Call.sendTransaction q ∈ ((replace env tx s).1).calls →
      Call.sendTransaction q ∈ s.calls ∨ q.nonce = s.tx.nonce := by
  unfold replace
  rw [if_neg (by simp [h])]
  by_cases hgl : optFalsy tx.gasLimit = true
  · rw [if_pos hgl]
    cases henv : env.estimateGas tx with
    | error e =>
        refine ⟨h, rfl, ?_⟩
        intro q hq
        rcases List.mem_append.mp hq with h1 | h2
        · exact Or.inl h1
        · simp at h2
    | ok g =>
        obtain ⟨hex, hnonce, hcalls⟩ := replaceResubmit_step env
          { tx with gasLimit := some (min
              ((((g : ℚ) * s.cfg.GAS_LIMIT_MULTIPLIER).floor).toNat)
              (s.cfg.BLOCK_GAS_LIMIT.getD 0)) }
          { s with calls := s.calls ++ [Call.estimateGas tx] } h
        refine ⟨hex, hnonce, ?_⟩
        intro q hq
        rcases hcalls q hq with h1 | h2
        · rcases List.mem_append.mp h1 with h1a | h1b
          · exact Or.inl h1a
          · simp at h1b
        · exact Or.inr h2
  · rw [if_neg hgl]
    exact replaceResubmit_step env tx s h

/-- Claim C2: once a Transaction has executed, its request's nonce is
never changed by any later sequence of `replace`/`cancel` calls, and
every broadcast those calls perform goes out under exactly that
nonce. -/
theorem nonce_immutable (env : Env) (s : TxState) (h : s.executed = true)
    (ops : List (Option Request)) :
    (applyOps env ops s).executed = true ∧
    (applyOps env ops s).tx.nonce = s.tx.nonce ∧
    ∀ q, Call.sendTransaction q ∈ (applyOps env ops s).calls →
      Call.sendTransaction q ∈ s.calls ∨ q.nonce = s.tx.nonce := by
  induction ops generalizing s with
  | nil => exact ⟨h, rfl, fun q hq => Or.inl hq⟩
  | cons op rest ih =>
      cases op with
      | some r =>
          obtain ⟨hex, hnonce, hcalls⟩ := replace_step env r s h
          obtain ⟨ihex, ihnonce, ihcalls⟩ := ih ((replace env r s).1) hex
          refine ⟨ihex, ihnonce.trans hnonce, fun q hq => ?_⟩
          rcases ihcalls q hq with h1 | h2
          · rcases hcalls q h1 with h1a | h1b
            · exact Or.inl h1a
            · exact Or.inr h1b
          · exact Or.inr (h2.trans hnonce)
      | none =>
          obtain ⟨hex, hnonce, hcalls⟩ := replace_step env
            { fromAddr := some s.address
              toAddr := some s.address
              value := some 0
              gasLimit := some 21000 } s h
          obtain ⟨ihex, ihnonce, ihcalls⟩ := ih ((cancel env s).1) hex
          refine ⟨ihex, ihnonce.trans hnonce, fun q hq => ?_⟩
          rcases ihcalls q hq with h1 | h2
          · rcases hcalls q h1 with h1a | h1b
            · exact Or.inl h1a
            · exact Or.inr h1b
          · exact Or.inr (h2.trans hnonce)

/-- Witness for C2: a sequence of one replace and one cancel on an
executed Transaction with nonce 7 leaves the request's nonce at 7. -/
theorem nonce_immutable_witness :
    sentState.executed = true ∧
    (applyOps envAllOk [some { toAddr := some 9 }, none] sentState).tx.nonce =
      sentState.tx.nonce ∧
    sentState.tx.nonce = some 7 :=
  ⟨rfl, (nonce_immutable envAllOk sentState rfl
      [some { toAddr := some 9 }, none]).2.1, rfl⟩

/-! ## Claim C10: replace before send installs exactly the new payload -/

/-- Claim C10: on a freshly constructed Transaction (send not yet
invoked), `replace(tx)` overwrites the pending request with exactly the
fields passed in — every field the caller does not supply is gone,
including the `from` address the constructor had bound from the
manager — and performs no network calls. -/
theorem replace_before_send (m : Manager) (r0 newTx : Request) (env : Env) :
    (mkTransaction r0 m).tx.fromAddr = some m.address ∧
    (mkTransaction r0 m).executed = false ∧
    replace env newTx (mkTransaction r0 m) =
      ({ mkTransaction r0 m with tx := newTx }, Except.ok ()) := by
  refine ⟨rfl, rfl, ?_⟩
  unfold replace
  rw [if_pos]
  rfl

/-! ## Claim C7: hash recording and the transactionHash event in `_send` -/

/-- Counterexample to C7 as stated: here the broadcast succeeds (the
hash 161 is fetched and appended to `hashes`) yet no `transactionHash`
event is emitted, because in the source the `emit` comes after `await
signedTx.waitReceipt()`, which fails in this environment.  Had the
emission preceded the receipt wait, `events` would contain the event. -/
theorem submit_event_counterexample :
    envReceiptFails.sendTransaction sentState.tx = Except.ok () ∧
    envReceiptFails.getHash = Except.ok 161 ∧
    (_send envReceiptFails sentState).2 = Except.error (Err.network 0) ∧
    ((_send envReceiptFails sentState).1).hashes = sentState.hashes ++ [161] ∧
    ((_send envReceiptFails sentState).1).events = [] :=
  ⟨rfl, rfl, rfl, rfl, rfl⟩

/-- Claim C7 (amended): for every submit whose broadcast succeeds, the
returned hash is appended to `hashes`; exactly one `transactionHash`
event is emitted when the receipt wait also succeeds — and only then,
after the receipt is obtained, not before the wait; when the receipt
wait fails no event is emitted. -/
theorem submit_event_amended (env : Env) (s : TxState) (h : ℕ)
    (hb : env.sendTransaction s.tx = Except.ok ())
    (hh : env.getHash = Except.ok h) :
    ((_send env s).1).hashes = s.hashes ++ [h] ∧
    (∀ rc, env.waitReceipt = Except.ok rc →
      ((_send env s).1).events = s.events ++ [Event.transactionHash h] ∧
      (_send env s).2 = Except.ok ()) ∧
    (∀ e, env.waitReceipt = Except.error e →
      ((_send env s).1).events = s.events ∧
      (_send env s).2 = Except.error e) := by
  unfold _send
  rw [hb, hh]
  dsimp only
  cases henv : env.waitReceipt with
  | error e =>
      exact ⟨rfl, fun rc hrc => (nomatch hrc),
        fun e' he' => by cases he'; exact ⟨rfl, rfl⟩⟩
  | ok rc =>
      exact ⟨rfl, fun rc' hrc => by cases hrc; exact ⟨rfl, rfl⟩,
        fun e' he' => (nomatch he')⟩

/-- Witness for C7 (amended) at a fully successful submit. -/
theorem submit_event_amended_witness :
    envAllOk.sendTransaction sentState.tx = Except.ok () ∧
    envAllOk.getHash = Except.ok 161 ∧
    envAllOk.waitReceipt = Except.ok 1 ∧
    ((_send envAllOk sentState).1).hashes = sentState.hashes ++ [161] ∧
    ((_send envAllOk sentState).1).events =
      sentState.events ++ [Event.transactionHash 161] :=
  ⟨rfl, rfl, rfl, (submit_event_amended envAllOk sentState 161 rfl rfl).1,
    ((submit_event_amended envAllOk sentState 161 rfl rfl).2.1 1 rfl).1⟩

/-! ## Claim C3: lazy nonce initialization and the falsy-zero refetch -/

theorem andThen_ok (s : TxState) (u : Unit)
    (f : TxState → TxState × Except Err Unit) :
    andThen (s, Except.ok u) f = f s := rfl

theorem andThen_err (s : TxState) (e : Err)
    (f : TxState → TxState × Except Err Unit) :
    andThen (s, Except.error e) f = (s, Except.error e) := rfl

theorem prepareNonce_falsy_cases (env : Env) (s : TxState)
    (h : optFalsy s.managerNonce = true) :
    (∀ n, env.getTransactionCount = Except.ok n →
      prepareNonce env s = ({ s with
        calls := s.calls ++ [Call.getTransactionCount]
        managerNonce := some n
        tx := { s.tx with nonce := some n } }, Except.ok ())) ∧
    (∀ e, env.getTransactionCount = Except.error e →
      prepareNonce env s =
        ({ s with calls := s.calls ++ [Call.getTransactionCount] },
          Except.error e)) := by
  unfold prepareNonce
  rw [if_pos h]
  exact ⟨fun n hn => by rw [hn], fun e he => by rw [he]⟩

theorem prepareNonce_tail_truthy (env : Env) (s3 : TxState)
    (hf : optFalsy s3.managerNonce = false) :
    ((andThen (prepareNonce env s3) fun s => prepareChainId env s).1).managerNonce
      = s3.managerNonce ∧
    ∃ l, ((andThen (prepareNonce env s3) fun s =>
        prepareChainId env s).1).calls = s3.calls ++ l ∧
      Call.getTransactionCount ∉ l := by
  rw [prepareNonce_truthy env s3 hf]
  simp only [andThen_ok, andThen_err]
  obtain ⟨f5n, -, -, -, l5, h5c, h5tc, -⟩ := prepareChainId_frame env
    { s3 with tx := { s3.tx with nonce := s3.managerNonce } }
  exact ⟨f5n, l5, h5c, h5tc⟩

theorem prepareNonce_tail_falsy (env : Env) (s3 : TxState)
    (hf : optFalsy s3.managerNonce = true) :
    ∀ u, ((andThen (prepareNonce env s3) fun s =>
        prepareChainId env s)).2 = Except.ok u →
      ∃ n, env.getTransactionCount = Except.ok n ∧
        ((andThen (prepareNonce env s3) fun s =>
          prepareChainId env s).1).managerNonce = some n ∧
        ((andThen (prepareNonce env s3) fun s =>
          prepareChainId env s).1).tx.nonce = some n ∧
        ∃ l2, ((andThen (prepareNonce env s3) fun s =>
            prepareChainId env s).1).calls =
          s3.calls ++ (Call.getTransactionCount :: l2) ∧
          Call.getTransactionCount ∉ l2 := by
  obtain ⟨hok, herr⟩ := prepareNonce_falsy_cases env s3 hf
  cases henv : env.getTransactionCount with
  | error e =>
      rw [herr e henv]
      simp only [andThen_ok, andThen_err]
      exact fun u hu => (nomatch hu)
  | ok n =>
      rw [hok n henv]
      simp only [andThen_ok, andThen_err]
      intro u hu
      obtain ⟨f5n, f5nonce, -, -, l5, h5c, h5tc, -⟩ := prepareChainId_frame env
        { s3 with
          calls := s3.calls ++ [Call.getTransactionCount]
          managerNonce := some n
          tx := { s3.tx with nonce := some n } }
      refine ⟨n, rfl, f5n, f5nonce, l5, ?_, h5tc⟩
      have hc : ({ s3 with
          calls := s3.calls ++ [Call.getTransactionCount]
          managerNonce := some n
          tx := { s3.tx with nonce := some n } } : TxState).calls ++ l5 =
          s3.calls ++ (Call.getTransactionCount :: l5) := by
        simp [List.append_assoc]
      exact h5c.trans hc

/-- Claim C3 (amended): during prepare, a stored manager nonce that is a
nonzero number is reused and no transaction-count query is made; when
the stored nonce is absent or 0 (both falsy in JS), a successful prepare
fetches the transaction count exactly once and stores it.  The original
claim's "including 0" fails: 0 is treated as uninitialized. -/
theorem prepare_nonce_lazy_init (env : Env) (s : TxState) :
    (∀ k, s.managerNonce = some k → k ≠ 0 →
      ((_prepare env s).1).managerNonce = some k ∧
      ∃ l, ((_prepare env s).1).calls = s.calls ++ l ∧
        Call.getTransactionCount ∉ l) ∧
    (optFalsy s.managerNonce = true →
      ∀ u, (_prepare env s).2 = Except.ok u →
        ∃ n, env.getTransactionCount = Except.ok n ∧
          ((_prepare env s).1).managerNonce = some n ∧
          ((_prepare env s).1).tx.nonce = some n ∧
          ∃ l1 l2, ((_prepare env s).1).calls =
            s.calls ++ (l1 ++ Call.getTransactionCount :: l2) ∧
            Call.getTransactionCount ∉ l1 ∧ Call.getTransactionCount ∉ l2) := by
  unfold _prepare
  obtain ⟨f1n, -, -, la, h1c, h1tc, -⟩ := prepareBlockGasLimit_frame env s
  rcases h1 : prepareBlockGasLimit env s with ⟨s1, r1⟩
  rw [h1] at f1n h1c
  cases r1 with
  | error e1 =>
      simp only [andThen_ok, andThen_err]
      exact ⟨fun k hk hk0 => ⟨f1n.trans hk, la, h1c, h1tc⟩,
        fun hf u hu => (nomatch hu)⟩
  | ok u1 =>
    simp only [andThen_ok, andThen_err]
    obtain ⟨f2n, -, -, -, lb, h2c, h2tc, -⟩ := prepareGasLimit_frame env s1
    rcases h2 : prepareGasLimit env s1 with ⟨s2, r2⟩
    rw [h2] at f2n h2c
    cases r2 with
    | error e2 =>
        simp only [andThen_ok, andThen_err]
        have hc : s2.calls = s.calls ++ (la ++ lb) := by
          rw [h2c, h1c, List.append_assoc]
        refine ⟨fun k hk hk0 => ⟨f2n.trans (f1n.trans hk), la ++ lb, hc, ?_⟩,
          fun hf u hu => (nomatch hu)⟩
        intro hx
        rcases List.mem_append.mp hx with hx1 | hx2
        · exact h1tc hx1
        · exact h2tc hx2
    | ok u2 =>
      simp only [andThen_ok, andThen_err]
      obtain ⟨f3n, -, -, -, lc, h3c, h3tc, -⟩ := prepareGasPrice_frame env s2
      rcases h3 : prepareGasPrice env s2 with ⟨s3, r3⟩
      rw [h3] at f3n h3c
      have hs3n : s3.managerNonce = s.managerNonce := f3n.trans (f2n.trans f1n)
      have hc3 : s3.calls = s.calls ++ (la ++ (lb ++ lc)) := by
        rw [h3c, h2c, h1c]
        simp [List.append_assoc]
      cases r3 with
      | error e3 =>
          simp only [andThen_ok, andThen_err]
          refine ⟨fun k hk hk0 => ⟨hs3n.trans hk, la ++ (lb ++ lc), hc3, ?_⟩,
            fun hf u hu => (nomatch hu)⟩
          intro hx
          rcases List.mem_append.mp hx with hx1 | hx
          · exact h1tc hx1
          rcases List.mem_append.mp hx with hx2 | hx3
          · exact h2tc hx2
          · exact h3tc hx3
      | ok u3 =>
        simp only [andThen_ok, andThen_err]
        constructor
        · intro k hk hk0
          have hf3 : optFalsy s3.managerNonce = false := by
            rw [hs3n, hk]
            simp [optFalsy, hk0]
          obtain ⟨m5, l5, h5c, h5tc⟩ := prepareNonce_tail_truthy env s3 hf3
          refine ⟨m5.trans (hs3n.trans hk), la ++ (lb ++ (lc ++ l5)), ?_, ?_⟩
          · rw [h5c, hc3]
            simp [List.append_assoc]
          · intro hx
            rcases List.mem_append.mp hx with hx1 | hx
            · exact h1tc hx1
            rcases List.mem_append.mp hx with hx2 | hx
            · exact h2tc hx2
            rcases List.mem_append.mp hx with hx3 | hx5
            · exact h3tc hx3
            · exact h5tc hx5
        · intro hf u hu
          have hf3 : optFalsy s3.managerNonce = true := by rw [hs3n]; exact hf
          obtain ⟨n, henv, m5, m5x, l2, h5c, h5tc⟩ :=
            prepareNonce_tail_falsy env s3 hf3 u hu
          refine ⟨n, henv, m5, m5x, la ++ (lb ++ lc), l2, ?_, ?_, h5tc⟩
          · rw [h5c, hc3]
            simp [List.append_assoc]
          · intro hx
            rcases List.mem_append.mp hx with hx1 | hx
            · exact h1tc hx1
            rcases List.mem_append.mp hx with hx2 | hx3
            · exact h2tc hx2
            · exact h3tc hx3

/-- Counterexample to C3 as stated: with the already-initialized stored
value 0, prepare does not reuse it — a transaction-count query is made
(JS falsiness treats 0 as unset) and the stored value becomes the
fetched 7. -/
theorem prepare_nonce_zero_counterexample :
    stateNonceZero.managerNonce = some 0 ∧
    ((_prepare envAllOk stateNonceZero).1).managerNonce = some 7 ∧
    ((_prepare envAllOk stateNonceZero).1).calls =
      [Call.getTransactionCount, Call.getChainId] :=
  ⟨rfl, rfl, rfl⟩

/-- Witness for C3 (amended): a nonzero stored nonce (7) is reused with
no transaction-count query; the falsy stored value 0 triggers exactly
one fetch that stores 7. -/
theorem prepare_nonce_lazy_init_witness :
    (readyState.managerNonce = some 7 ∧
      ((_prepare envAllOk readyState).1).managerNonce = some 7) ∧
    (optFalsy stateNonceZero.managerNonce = true ∧
      (_prepare envAllOk stateNonceZero).2 = Except.ok () ∧
      ∃ n, envAllOk.getTransactionCount = Except.ok n ∧
        ((_prepare envAllOk stateNonceZero).1).managerNonce = some n ∧
        ((_prepare envAllOk stateNonceZero).1).tx.nonce = some n ∧
        ∃ l1 l2, ((_prepare envAllOk stateNonceZero).1).calls =
          stateNonceZero.calls ++ (l1 ++ Call.getTransactionCount :: l2) ∧
          Call.getTransactionCount ∉ l1 ∧ Call.getTransactionCount ∉ l2) :=
  ⟨⟨rfl, ((prepare_nonce_lazy_init envAllOk readyState).1 7 rfl
      (by decide)).1⟩,
    rfl, rfl, (prepare_nonce_lazy_init envAllOk stateNonceZero).2 rfl () rfl⟩

/-! ## Claim C8: gas-limit preparation formula -/

theorem prepareBlockGasLimit_cached (env : Env) (s : TxState)
    (h : optFalsy s.cfg.BLOCK_GAS_LIMIT = false) :
    prepareBlockGasLimit env s = (s, Except.ok ()) := by
  unfold prepareBlockGasLimit
  rw [if_neg (by simp [h])]

theorem prepareGasLimit_estimates (env : Env) (s : TxState) (g : ℕ)
    (h1 : s.tx.gasLimit = none) (h3 : env.estimateGas s.tx = Except.ok g) :
    prepareGasLimit env s = ({ s with
      calls := s.calls ++ [Call.estimateGas s.tx]
      tx := { s.tx with gasLimit := some (min
        ((((g : ℚ) * s.cfg.GAS_LIMIT_MULTIPLIER).floor).toNat)
        (s.cfg.BLOCK_GAS_LIMIT.getD 0)) } }, Except.ok ()) := by
  have hopt : optFalsy s.tx.gasLimit = true := by rw [h1]; rfl
  unfold prepareGasLimit
  rw [if_pos (by rw [hopt]; rfl), h3]
  dsimp only
  rw [if_pos hopt]

theorem prepare_tail_gasLimit (env : Env) (s2 : TxState) :
    ((andThen (prepareGasPrice env s2) fun s =>
      andThen (prepareNonce env s) fun s =>
      prepareChainId env s).1).tx.gasLimit = s2.tx.gasLimit := by
  obtain ⟨-, -, f3gl, -, -⟩ := prepareGasPrice_frame env s2
  rcases h3 : prepareGasPrice env s2 with ⟨s3, r3⟩
  rw [h3] at f3gl
  cases r3 with
  | error e => simpa only [andThen_err] using f3gl
  | ok u =>
    simp only [andThen_ok]
    obtain ⟨f4gl, -, -, -⟩ := prepareNonce_frame env s3
    rcases h4 : prepareNonce env s3 with ⟨s4, r4⟩
    rw [h4] at f4gl
    cases r4 with
    | error e => simpa only [andThen_err] using f4gl.trans f3gl
    | ok u4 =>
      simp only [andThen_ok]
      obtain ⟨-, -, f5gl, -, -⟩ := prepareChainId_frame env s4
      exact f5gl.trans (f4gl.trans f3gl)

/-- Claim C8: during prepare, when no explicit gas limit is given (and
the block gas limit b is already cached), the gas limit is set to
`min(floor(estimate * multiplier), b)`, whatever happens in the later
preparation steps. -/
theorem prepare_gas_limit (env : Env) (s : TxState) (g b : ℕ)
    (h1 : s.tx.gasLimit = none)
    (h2 : s.cfg.BLOCK_GAS_LIMIT = some b) (hb : b ≠ 0)
    (h3 : env.estimateGas s.tx = Except.ok g) :
    ((_prepare env s).1).tx.gasLimit =
      some (min ((((g : ℚ) * s.cfg.GAS_LIMIT_MULTIPLIER).floor).toNat) b) := by
  unfold _prepare
  rw [prepareBlockGasLimit_cached env s (by rw [h2]; simp [optFalsy, hb])]
  simp only [andThen_ok]
  rw [prepareGasLimit_estimates env s g h1 h3]
  simp only [andThen_ok]
  rw [prepare_tail_gasLimit]
  rw [h2]
  rfl

/-- Witness for C8: the two concrete instances from the specification:
estimate 50000 with multiplier 1.2 capped by block gas limit 60000
gives 60000; estimate 40000 gives 48000. -/
theorem prepare_gas_limit_witness :
    (stateNoGasLimit.tx.gasLimit = none ∧
      stateNoGasLimit.cfg.BLOCK_GAS_LIMIT = some 60000 ∧
      envEstimate50k.estimateGas stateNoGasLimit.tx = Except.ok 50000 ∧
      ((_prepare envEstimate50k stateNoGasLimit).1).tx.gasLimit = some 60000) ∧
    (envAllOk.estimateGas stateNoGasLimit.tx = Except.ok 40000 ∧
      ((_prepare envAllOk stateNoGasLimit).1).tx.gasLimit = some 48000) := by
  refine ⟨⟨rfl, rfl, rfl, ?_⟩, rfl, ?_⟩
  · rw [prepare_gas_limit envEstimate50k stateNoGasLimit 50000 60000 rfl rfl
      (by decide) rfl]
    rw [Rat.floor_def']
    norm_num [stateNoGasLimit, readyState]
    rfl
  · rw [prepare_gas_limit envAllOk stateNoGasLimit 40000 60000 rfl rfl
      (by decide) rfl]
    rw [Rat.floor_def']
    norm_num [stateNoGasLimit, readyState]
    rfl

end TxManager
